import Mathlib

/-!
Verification of the decode/parse/encode pipeline of a minimal HTTP/1.1
server written in C (`src/main.c`).  Byte strings are modelled as
`List Char`; the C functions below are shallow embeddings of the source
functions of the same name.  C strings are NUL-terminated; the model
assumes NUL-free payloads, which is the regime all claims live in.
-/

/-- Embeds C `isspace` (default locale): space, tab, newline, vertical
tab, form feed, carriage return. -/
def isspace (c : Char) : Bool :=
  c = ' ' || c = '\t' || c = '\n' || c = '\x0b' || c = '\x0c' || c = '\r'

/-- Embeds `trim_whitespace` (src/main.c:314-327): drop leading
whitespace; if nothing remains return the empty string; otherwise drop
trailing whitespace.  The C scan `while (end > str && isspace(*end))`
never passes the first character, which after the leading trim is not
whitespace, so dropping from the reversed list is the same computation. -/
def trim_whitespace (s : List Char) : List Char :=
  if s.dropWhile isspace = [] then []
  else ((s.dropWhile isspace).reverse.dropWhile isspace).reverse

/-- Embeds `strchr` + split at the first occurrence, as used by
`parse_status_line` and `parse_header_line`: the C code overwrites the
found character with NUL, yielding the text before it and the text
after it.  Returns `none` when the character does not occur. -/
def strchrSplit (c : Char) (s : List Char) : Option (List Char × List Char) :=
  if c ∈ s then
    some (s.takeWhile (fun x => x != c), (s.dropWhile (fun x => x != c)).drop 1)
  else none

/-- Embeds `struct Header` (src/main.c:26-30), minus the intrusive next
pointer: the linked list is modelled as `List Header`. -/
structure Header where
  name : List Char
  value : List Char
deriving DecidableEq, Repr

/-- Embeds `struct Request` (src/main.c:33-40).  The borrowed socket
handle is not modelled (no claim observes it); NULL char pointers are
`none`. -/
structure Request where
  header_count : Nat
  headers : List Header
  method : Option (List Char)
  path : Option (List Char)
  http_version : Option (List Char)
deriving DecidableEq, Repr

/-- The zero-initialised request built at the top of `new_request`
(src/main.c:337-344). -/
def emptyRequest : Request :=
  { header_count := 0, headers := [], method := none, path := none,
    http_version := none }

/-- Embeds `parse_status_line` (src/main.c:371-389).  The C function
mutates `request` and returns a bool; here it returns both.  Note that
`request->method` is assigned before the second space is looked for, so
a line with exactly one space fails while leaving the method set. -/
def parse_status_line (line : List Char) (request : Request) : Bool × Request :=
  match strchrSplit ' ' line with
  | none => (false, request)
  | some (before1, after1) =>
    match strchrSplit ' ' after1 with
    | none => (false, { request with method := some before1 })
    | some (before2, after2) =>
      (true, { request with
                method := some before1,
                path := some before2,
                http_version := some after2 })

/-- The header entry `parse_header_line` builds from one line: split at
the first colon, trim both sides (src/main.c:399-410). -/
def parseHeaderPair (line : List Char) : Header :=
  match strchrSplit ':' line with
  | some (n, v) => { name := trim_whitespace n, value := trim_whitespace v }
  | none => { name := [], value := [] }

/-- Embeds `parse_header_line` (src/main.c:398-416): a line without a
colon fails and leaves the request untouched; otherwise the new header
is pushed on the FRONT of the list and the count is incremented. -/
def parse_header_line (line : List Char) (request : Request) : Bool × Request :=
  match strchrSplit ':' line with
  | none => (false, request)
  | some (n, v) =>
    (true, { request with
             headers := { name := trim_whitespace n,
                          value := trim_whitespace v } :: request.headers,
             header_count := request.header_count + 1 })

/-- Embeds the `strtok_r(headers, "\n", ...)` token stream of
`new_request`: maximal non-empty runs between newline delimiters. -/
def tokenize (s : List Char) : List (List Char) :=
  (s.splitOn '\n').filter (fun l => l ≠ [])

/-- Embeds the header-line loop of `new_request` (src/main.c:353-359):
on the first line without a colon the method is reset to NULL and the
loop breaks; otherwise every line is parsed in order. -/
def parse_header_lines : List (List Char) → Request → Request
  | [], request => request
  | line :: rest, request =>
    match parse_header_line line request with
    | (false, request2) => { request2 with method := none }
    | (true, request2) => parse_header_lines rest request2

/-- Embeds `new_request` (src/main.c:336-362): tokenize on newlines,
parse the first token as the request line, and only when that fully
succeeds parse the remaining tokens as header lines. -/
def new_request (headers : List Char) : Request :=
  match tokenize headers with
  | [] => emptyRequest
  | line :: rest =>
    match parse_status_line line emptyRequest with
    | (false, request) => request
    | (true, request) => parse_header_lines rest request

/-- Embeds the `request.method != NULL` validity gate of
`handle_request` (src/main.c:471). -/
def method_is_set (request : Request) : Bool :=
  request.method.isSome

/-- Embeds `struct Response` (src/main.c:42-50), socket handle omitted.
`encoded_response` is `none` while the C pointer is NULL. -/
structure Response where
  header_count : Nat
  headers : List Header
  code : Nat
  http_version : List Char
  body : List Char
  encoded_response : Option (List Char)
deriving DecidableEq, Repr

/-- Embeds the `statuses` table after `init_status_tbl`
(src/main.c:100-105): zeroed except for entries 200, 201, 204.  A
zeroed entry has code 0 and a NULL reason. -/
def statuses (index : Nat) : Nat × Option (List Char) :=
  if index = 200 then (200, some ['O', 'K'])
  else if index = 201 then (201, some ['C', 'r', 'e', 'a', 't', 'e', 'd'])
  else if index = 204 then
    (204, some ['N', 'o', ' ', 'C', 'o', 'n', 't', 'e', 'n', 't'])
  else (0, none)

/-- Embeds `reason` (src/main.c:115-121): index by `code % 512` and
check the stored code matches before returning the stored reason. -/
def reason (code : Nat) : Option (List Char) :=
  if (statuses (code % 512)).1 = code then (statuses (code % 512)).2
  else none

/-- Embeds `crlf` (src/main.c:129-142): append a CR LF pair. -/
def crlf (content : List Char) : List Char :=
  content ++ ['\r', '\n']

/-- Embeds `add_header` (src/main.c:151-167): walk to the tail of the
linked list and append the new entry there, bumping the count. -/
def add_header (response : Response) (name value : List Char) : Response :=
  { response with
    headers := response.headers ++ [{ name := name, value := value }],
    header_count := response.header_count + 1 }

/-- The literal written by `sprintf(status, "HTTP/1.1 %d %s", ...)`
in `construct_status_line` (src/main.c:183). -/
def httpOneDotOne : List Char :=
  ['H', 'T', 'T', 'P', '/', '1', '.', '1']

/-- Embeds `construct_status_line` (src/main.c:175-186): NULL on an
unknown code, otherwise the literal `HTTP/1.1`, the decimal code and
the reason phrase, CRLF-terminated.  The response's own
`http_version` field is not consulted. -/
def construct_status_line (response : Response) : Option (List Char) :=
  match reason response.code with
  | none => none
  | some reason_str =>
    some (crlf (httpOneDotOne ++ [' '] ++ Nat.toDigits 10 response.code
                ++ [' '] ++ reason_str))

/-- Embeds the rendering loop of `construct_headers`
(src/main.c:198-205): each entry becomes `name`, `": "`, `value`,
CRLF, in list order. -/
def construct_headers_list : List Header → List Char
  | [] => []
  | h :: rest =>
    h.name ++ [':', ' '] ++ h.value ++ ['\r', '\n']
      ++ construct_headers_list rest

/-- Embeds `construct_headers` (src/main.c:194-208). -/
def construct_headers (response : Response) : List Char :=
  construct_headers_list response.headers

/-- The name of the synthesized `Content-Length` header
(src/main.c:225). -/
def contentLengthName : List Char :=
  ['C', 'o', 'n', 't', 'e', 'n', 't', '-', 'L', 'e', 'n', 'g', 't', 'h']

/-- The name of the synthesized `Connection` header (src/main.c:226). -/
def connectionName : List Char :=
  ['C', 'o', 'n', 'n', 'e', 'c', 't', 'i', 'o', 'n']

/-- The value of the synthesized `Connection` header (src/main.c:226). -/
def closeValue : List Char :=
  ['c', 'l', 'o', 's', 'e']

/-- Embeds `encode` (src/main.c:215-240): on an unknown status code it
returns early leaving `encoded_response` untouched; otherwise it
appends the `Content-Length` (decimal `strlen(body)`) and
`Connection: close` headers and stores status line + headers + CRLF +
body. -/
def encode (response : Response) : Response :=
  match construct_status_line response with
  | none => response
  | some status_line =>
    let r1 := add_header response contentLengthName (Nat.toDigits 10 response.body.length)
    let r2 := add_header r1 connectionName closeValue
    { r2 with
        encoded_response :=
          some (status_line ++ construct_headers r2 ++ ['\r', '\n'] ++ r2.body) }

/-- Outcome of `send_response` (src/main.c:513-540), abstracting the
socket: `noEncoded` is the early return when `encoded_response` is
NULL (nothing sent, diagnostic printed), `tooLarge` the early return
when the encoded length reaches `max_ressize` (nothing sent,
diagnostic printed, response freed), `sent` the call to `send` with
exactly these bytes. -/
inductive SendOutcome where
  | noEncoded : SendOutcome
  | tooLarge : SendOutcome
  | sent : List Char → SendOutcome
deriving DecidableEq, Repr

/-- Embeds `send_response` (src/main.c:513-540): encode, then refuse
to send when there is no encoded response or when its length is at
least `max_ressize`. -/
def send_response (max_ressize : Nat) (response : Response) : SendOutcome :=
  let r := encode response
  match r.encoded_response with
  | none => SendOutcome.noEncoded
  | some enc =>
    if max_ressize ≤ enc.length then SendOutcome.tooLarge
    else SendOutcome.sent enc

/-- The header/body separator searched for by `strstr(buffer,
"\r\n\r\n")` (src/main.c:286). -/
def crlfcrlfSep : List Char :=
  ['\r', '\n', '\r', '\n']

/-- Index of the first occurrence of `\r\n\r\n`, as `strstr` finds it
(src/main.c:286). -/
def findCRLFCRLF : List Char → Option Nat
  | [] => none
  | c :: rest =>
    if crlfcrlfSep.isPrefixOf (c :: rest) then some 0
    else (findCRLFCRLF rest).map (fun i => i + 1)

/-- Embeds the fall-through tail of `http_decode` (src/main.c:302-305):
NUL-terminate and hand the whole accumulation out as header text when
anything was read, NULL otherwise; the body output is NULL. -/
def finishDecode (buffer : List Char) : Option (List Char) × Option (List Char) :=
  (if buffer = [] then none else some buffer, none)

/-- Embeds the read loop of `http_decode` (src/main.c:276-300).  The
`chunks` list is the trace of successive `recv` results (an empty
chunk, or the trace running out, models `recv` returning zero or a
negative value); each chunk is capped at the remaining capacity
`max_reqsize - read_ptr`, which is what `recv` is asked for.  The loop
runs while `read_ptr < max_reqsize - 1`, re-scans the whole
accumulated buffer for `\r\n\r\n` after every read, and on a hit
returns the split; otherwise it falls through to `finishDecode`. -/
def http_decode_go (max_reqsize : Nat) :
    List (List Char) → List Char → Option (List Char) × Option (List Char)
  | [], buffer => finishDecode buffer
  | chunk :: rest, buffer =>
    if buffer.length < max_reqsize - 1 then
      if chunk.take (max_reqsize - buffer.length) = [] then finishDecode buffer
      else
        match findCRLFCRLF (buffer ++ chunk.take (max_reqsize - buffer.length)) with
        | some i =>
          (some ((buffer ++ chunk.take (max_reqsize - buffer.length)).take i),
           some ((buffer ++ chunk.take (max_reqsize - buffer.length)).drop (i + 4)))
        | none =>
          http_decode_go max_reqsize rest
            (buffer ++ chunk.take (max_reqsize - buffer.length))
    else finishDecode buffer

/-- Embeds `http_decode` (src/main.c:271-306): run the read loop on an
empty accumulation buffer; the pair is `(headers_out, body_out)`. -/
def http_decode (max_reqsize : Nat) (chunks : List (List Char)) :
    Option (List Char) × Option (List Char) :=
  http_decode_go max_reqsize chunks []

/-- The frame-reader contract, transcribed from the specification of
the read loop (spec section 4.2): keep receiving until either the
separator `\r\n\r\n` appears in the accumulated buffer — header output
is the bytes before it, body output the bytes after it that have
arrived — or at most one byte of capacity remains, in which case the
whole accumulation is header text and there is no body; a receive
returning no bytes (or the trace ending) stops the loop the same way;
header output is null exactly when the accumulation is empty. -/
inductive FrameReaderSpec (maxReq : Nat) :
    List (List Char) → List Char →
    Option (List Char) × Option (List Char) → Prop
  | capacityStop (chunks : List (List Char)) (buffer : List Char)
      (hfull : maxReq - 1 ≤ buffer.length) :
      FrameReaderSpec maxReq chunks buffer
        (if buffer = [] then none else some buffer, none)
  | peerClosed (chunk : List Char) (rest : List (List Char)) (buffer : List Char)
      (hroom : buffer.length < maxReq - 1)
      (hclosed : chunk.take (maxReq - buffer.length) = []) :
      FrameReaderSpec maxReq (chunk :: rest) buffer
        (if buffer = [] then none else some buffer, none)
  | noMoreInput (buffer : List Char)
      (hroom : buffer.length < maxReq - 1) :
      FrameReaderSpec maxReq [] buffer
        (if buffer = [] then none else some buffer, none)
  | separatorFound (chunk : List Char) (rest : List (List Char))
      (buffer : List Char) (i : Nat)
      (hroom : buffer.length < maxReq - 1)
      (hsome : chunk.take (maxReq - buffer.length) ≠ [])
      (hsep : findCRLFCRLF (buffer ++ chunk.take (maxReq - buffer.length)) = some i) :
      FrameReaderSpec maxReq (chunk :: rest) buffer
        (some ((buffer ++ chunk.take (maxReq - buffer.length)).take i),
         some ((buffer ++ chunk.take (maxReq - buffer.length)).drop (i + 4)))
  | keepReading (chunk : List Char) (rest : List (List Char))
      (buffer : List Char) (out : Option (List Char) × Option (List Char))
      (hroom : buffer.length < maxReq - 1)
      (hsome : chunk.take (maxReq - buffer.length) ≠ [])
      (hsep : findCRLFCRLF (buffer ++ chunk.take (maxReq - buffer.length)) = none)
      (hrest : FrameReaderSpec maxReq rest
        (buffer ++ chunk.take (maxReq - buffer.length)) out) :
      FrameReaderSpec maxReq (chunk :: rest) buffer out

/-! ### Helper lemmas about the embedded primitives -/

theorem strchrSplit_of_not_mem (c : Char) (s : List Char) (h : c ∉ s) :
    strchrSplit c s = none := by
  simp [strchrSplit, h]

theorem strchrSplit_of_mem (c : Char) (s : List Char) (h : c ∈ s) :
    strchrSplit c s =
      some (s.takeWhile (fun x => x != c), (s.dropWhile (fun x => x != c)).drop 1) := by
  simp [strchrSplit, h]

theorem count_strchr_rest (c : Char) (s : List Char) (h : c ∈ s) :
    ((s.dropWhile (fun x => x != c)).drop 1).count c + 1 = s.count c := by
  induction s with
  | nil => cases h
  | cons a t ih =>
    by_cases hac : a = c
    · subst hac
      simp [List.dropWhile_cons, List.count_cons]
    · have hct : c ∈ t := by
        cases h with
        | head => exact absurd rfl hac
        | tail _ h2 => exact h2
      have hne : (a != c) = true := bne_iff_ne.mpr hac
      simp only [List.dropWhile_cons, hne, if_true]
      rw [ih hct, List.count_cons]
      simp [bne_iff_ne.mp hne]

theorem parse_status_line_no_space (line : List Char) (r : Request)
    (h : line.count ' ' = 0) :
    parse_status_line line r = (false, r) := by
  unfold parse_status_line
  rw [strchrSplit_of_not_mem _ _ (List.count_eq_zero.mp h)]

theorem parse_status_line_one_space (line : List Char) (r : Request)
    (h : line.count ' ' = 1) :
    parse_status_line line r =
      (false, { r with method := some (line.takeWhile (fun x => x != ' ')) }) := by
  have hmem : ' ' ∈ line := List.count_pos_iff.mp (by omega)
  have h2 : ((line.dropWhile (fun x => x != ' ')).drop 1).count ' ' = 0 := by
    have := count_strchr_rest ' ' line hmem
    omega
  unfold parse_status_line
  rw [strchrSplit_of_mem _ _ hmem]
  simp only []
  rw [strchrSplit_of_not_mem _ _ (List.count_eq_zero.mp h2)]

theorem parse_status_line_two_spaces (line : List Char) (r : Request)
    (h : 2 ≤ line.count ' ') :
    ∃ m p v, parse_status_line line r =
      (true, { r with method := some m, path := some p, http_version := some v }) := by
  have hmem : ' ' ∈ line := List.count_pos_iff.mp (by omega)
  have h2 : 0 < ((line.dropWhile (fun x => x != ' ')).drop 1).count ' ' := by
    have := count_strchr_rest ' ' line hmem
    omega
  have hmem2 := List.count_pos_iff.mp h2
  refine ⟨line.takeWhile (fun x => x != ' '),
    ((line.dropWhile (fun x => x != ' ')).drop 1).takeWhile (fun x => x != ' '),
    (((line.dropWhile (fun x => x != ' ')).drop 1).dropWhile (fun x => x != ' ')).drop 1,
    ?_⟩
  unfold parse_status_line
  rw [strchrSplit_of_mem _ _ hmem]
  simp only []
  rw [strchrSplit_of_mem _ _ hmem2]

theorem parse_header_line_no_colon (line : List Char) (r : Request)
    (h : ':' ∉ line) :
    parse_header_line line r = (false, r) := by
  unfold parse_header_line
  rw [strchrSplit_of_not_mem _ _ h]

theorem parse_header_line_colon (line : List Char) (r : Request)
    (h : ':' ∈ line) :
    parse_header_line line r =
      (true,
        { r with
            headers := parseHeaderPair line :: r.headers,
            header_count := r.header_count + 1 }) := by
  unfold parse_header_line parseHeaderPair
  rw [strchrSplit_of_mem _ _ h]

theorem parse_header_lines_all_colon (ls : List (List Char)) :
    ∀ r : Request, (∀ l ∈ ls, ':' ∈ l) →
    (parse_header_lines ls r).headers = (ls.map parseHeaderPair).reverse ++ r.headers ∧
    (parse_header_lines ls r).header_count = r.header_count + ls.length ∧
    (parse_header_lines ls r).method = r.method := by
  induction ls with
  | nil => intro r _; simp [parse_header_lines]
  | cons l ls ih =>
    intro r hall
    have hl : ':' ∈ l := hall l (by simp)
    have hrec := ih
      { r with
          headers := parseHeaderPair l :: r.headers,
          header_count := r.header_count + 1 }
      (fun x hx => hall x (by simp [hx]))
    unfold parse_header_lines
    rw [parse_header_line_colon l r hl]
    simp only []
    refine ⟨?_, ?_, ?_⟩
    · rw [hrec.1]
      simp [List.append_assoc]
    · rw [hrec.2.1]
      show r.header_count + 1 + ls.length = r.header_count + (l :: ls).length
      simp only [List.length_cons]
      omega
    · exact hrec.2.2

theorem parse_header_lines_bad_line (good : List (List Char)) :
    ∀ (r : Request) (bad : List Char) (rest : List (List Char)),
    (∀ l ∈ good, ':' ∈ l) → ':' ∉ bad →
    (parse_header_lines (good ++ bad :: rest) r).method = none ∧
    (parse_header_lines (good ++ bad :: rest) r).header_count =
      r.header_count + good.length := by
  induction good with
  | nil =>
    intro r bad rest _ hbad
    simp only [List.nil_append]
    unfold parse_header_lines
    rw [parse_header_line_no_colon bad r hbad]
    simp
  | cons l good ih =>
    intro r bad rest hgood hbad
    have hl : ':' ∈ l := hgood l (by simp)
    have hrec := ih
      { r with
          headers := parseHeaderPair l :: r.headers,
          header_count := r.header_count + 1 }
      bad rest (fun x hx => hgood x (by simp [hx])) hbad
    simp only [List.cons_append]
    unfold parse_header_lines
    rw [parse_header_line_colon l r hl]
    simp only []
    refine ⟨hrec.1, ?_⟩
    rw [hrec.2]
    show r.header_count + 1 + good.length = r.header_count + (l :: good).length
    simp only [List.length_cons]
    omega

theorem new_request_eq_fail (block l0 : List Char) (ls : List (List Char)) (r : Request)
    (htok : tokenize block = l0 :: ls)
    (hps : parse_status_line l0 emptyRequest = (false, r)) :
    new_request block = r := by
  unfold new_request
  rw [htok]
  simp only []
  rw [hps]

theorem new_request_eq_ok (block l0 : List Char) (ls : List (List Char)) (r : Request)
    (htok : tokenize block = l0 :: ls)
    (hps : parse_status_line l0 emptyRequest = (true, r)) :
    new_request block = parse_header_lines ls r := by
  unfold new_request
  rw [htok]
  simp only []
  rw [hps]

/-! ### Claim theorems -/

/-- Claim C9 (confirmed): whitespace trimming is idempotent — a string
already free of leading and trailing whitespace (its first and last
characters, when present, are not whitespace) is returned unchanged —
and a string consisting only of whitespace characters trims to the
empty string. -/
theorem trim_whitespace_idempotent_and_blank (s : List Char) :
    ((∀ c, s.head? = some c → isspace c = false) →
     (∀ c, s.getLast? = some c → isspace c = false) →
     trim_whitespace s = s) ∧
    ((∀ c ∈ s, isspace c = true) → trim_whitespace s = []) := by
  constructor
  · intro hhead hlast
    cases s with
    | nil => simp [trim_whitespace]
    | cons a t =>
      have ha : isspace a = false := hhead a rfl
      have hdrop : (a :: t).dropWhile isspace = a :: t := by
        simp [List.dropWhile_cons, ha]
      have hrevdrop : (a :: t).reverse.dropWhile isspace = (a :: t).reverse := by
        cases hrev : (a :: t).reverse with
        | nil => simp at hrev
        | cons b rb =>
          have hb : isspace b = false := by
            apply hlast
            rw [List.getLast?_eq_head?_reverse, hrev]
            rfl
          simp [List.dropWhile_cons, hb]
      unfold trim_whitespace
      rw [hdrop, if_neg (by simp), hrevdrop, List.reverse_reverse]
  · intro hall
    have hnil : s.dropWhile isspace = [] := List.dropWhile_eq_nil_iff.mpr hall
    simp [trim_whitespace, hnil]

/-- Witness for C9 at concrete inputs. -/
theorem trim_whitespace_idempotent_and_blank_witness :
    trim_whitespace ['a', 'b'] = ['a', 'b'] ∧
    trim_whitespace [' ', '\t', '\r'] = [] := by
  constructor
  · exact (trim_whitespace_idempotent_and_blank ['a', 'b']).1
      (by decide) (by decide)
  · exact (trim_whitespace_idempotent_and_blank [' ', '\t', '\r']).2 (by decide)

/-- Counterexample for claim C1: the header block `A B` has a first
line with exactly one space (fewer than two), yet the parsed request's
method field is SET (to `A`), not unset as the claim requires. -/
theorem request_line_one_space_counterexample :
    (['A', ' ', 'B'].count ' ' < 2) ∧
    (new_request ['A', ' ', 'B']).method = some ['A'] := by
  decide

/-- Claim C1 (corrected): for a header block whose first line contains
fewer than two spaces, request-line parsing fails and no header lines
are parsed (no headers stored, count zero, path and version unset);
however the method field is unset only when the first line contains NO
space — with exactly one space the method is set to the text before
that space. -/
theorem request_line_few_spaces_amended (block l0 : List Char) (ls : List (List Char))
    (htok : tokenize block = l0 :: ls)
    (hlt : l0.count ' ' < 2) :
    (new_request block).headers = [] ∧
    (new_request block).header_count = 0 ∧
    (new_request block).path = none ∧
    (new_request block).http_version = none ∧
    ((new_request block).method = none ↔ l0.count ' ' = 0) := by
  have h01 : l0.count ' ' = 0 ∨ l0.count ' ' = 1 := by omega
  rcases h01 with h0 | h1
  · have hps := parse_status_line_no_space l0 emptyRequest h0
    rw [new_request_eq_fail block l0 ls emptyRequest htok hps]
    simp [emptyRequest, h0]
  · have hps := parse_status_line_one_space l0 emptyRequest h1
    rw [new_request_eq_fail block l0 ls _ htok hps]
    simp [emptyRequest, h1]

/-- Witness for the amended C1 at the concrete block `A B`. -/
theorem request_line_few_spaces_witness :
    (new_request ['A', ' ', 'B']).headers = [] ∧
    (new_request ['A', ' ', 'B']).header_count = 0 ∧
    (new_request ['A', ' ', 'B']).path = none ∧
    (new_request ['A', ' ', 'B']).http_version = none ∧
    ((new_request ['A', ' ', 'B']).method = none ↔ ['A', ' ', 'B'].count ' ' = 0) :=
  request_line_few_spaces_amended ['A', ' ', 'B'] ['A', ' ', 'B'] [] (by decide) (by decide)

/-- Claim C10 (confirmed): a header block whose first line contains
exactly one space yields a request whose method is the text before
that space while path and version stay unset, and such a request
passes the handler's method-is-set validity gate even though
request-line parsing did not complete. -/
theorem one_space_request_line_passes_check (block l0 : List Char) (ls : List (List Char))
    (htok : tokenize block = l0 :: ls)
    (h1 : l0.count ' ' = 1) :
    (new_request block).method = some (l0.takeWhile (fun x => x != ' ')) ∧
    (new_request block).path = none ∧
    (new_request block).http_version = none ∧
    method_is_set (new_request block) = true := by
  have hps := parse_status_line_one_space l0 emptyRequest h1
  rw [new_request_eq_fail block l0 ls _ htok hps]
  simp [emptyRequest, method_is_set]

/-- Witness for C10 at the concrete block `GET /`. -/
theorem one_space_request_line_passes_check_witness :
    (new_request ['G', 'E', 'T', ' ', '/']).method =
      some (['G', 'E', 'T', ' ', '/'].takeWhile (fun x => x != ' ')) ∧
    (new_request ['G', 'E', 'T', ' ', '/']).path = none ∧
    (new_request ['G', 'E', 'T', ' ', '/']).http_version = none ∧
    method_is_set (new_request ['G', 'E', 'T', ' ', '/']) = true :=
  one_space_request_line_passes_check ['G', 'E', 'T', ' ', '/'] ['G', 'E', 'T', ' ', '/'] []
    (by decide) (by decide)

/-- Claim C5 (confirmed): when the request line parses (at least two
spaces) and the header lines contain, at any position, a line without
a colon (all earlier header lines having colons), the request's method
is reset to unset and parsing stops: only the lines before the
colon-free one are counted. -/
theorem colonless_header_invalidates (block l0 bad : List Char)
    (good rest : List (List Char))
    (htok : tokenize block = l0 :: (good ++ bad :: rest))
    (h0 : 2 ≤ l0.count ' ')
    (hgood : ∀ l ∈ good, ':' ∈ l)
    (hbad : ':' ∉ bad) :
    (new_request block).method = none ∧
    (new_request block).header_count = good.length := by
  obtain ⟨m, p, v, hps⟩ := parse_status_line_two_spaces l0 emptyRequest h0
  rw [new_request_eq_ok block l0 _ _ htok hps]
  have hbadline := parse_header_lines_bad_line good
    { emptyRequest with method := some m, path := some p, http_version := some v }
    bad rest hgood hbad
  refine ⟨hbadline.1, ?_⟩
  rw [hbadline.2]
  simp [emptyRequest]

/-- Witness for C5: block `G / H`, then `A:b`, then colon-free `x`,
then `C:d`; one header is counted and the method is reset. -/
theorem colonless_header_invalidates_witness :
    (new_request
      ['G', ' ', '/', ' ', 'H', '\n', 'A', ':', 'b', '\n', 'x', '\n', 'C', ':', 'd']).method
      = none ∧
    (new_request
      ['G', ' ', '/', ' ', 'H', '\n', 'A', ':', 'b', '\n', 'x', '\n', 'C', ':', 'd']).header_count
      = [['A', ':', 'b']].length :=
  colonless_header_invalidates
    ['G', ' ', '/', ' ', 'H', '\n', 'A', ':', 'b', '\n', 'x', '\n', 'C', ':', 'd']
    ['G', ' ', '/', ' ', 'H'] ['x'] [['A', ':', 'b']] [['C', ':', 'd']]
    (by decide) (by decide) (by decide) (by decide)

/-- Claim C8 (confirmed): for a well-formed header block (request line
with at least two spaces, every header line containing a colon), the
stored header list is in most-recently-parsed-first order — the
reverse of wire order — and the header count equals the number of
parsed lines. -/
theorem request_headers_reverse_order (block l0 : List Char) (ls : List (List Char))
    (htok : tokenize block = l0 :: ls)
    (h0 : 2 ≤ l0.count ' ')
    (hall : ∀ l ∈ ls, ':' ∈ l) :
    (new_request block).headers = (ls.map parseHeaderPair).reverse ∧
    (new_request block).header_count = ls.length := by
  obtain ⟨m, p, v, hps⟩ := parse_status_line_two_spaces l0 emptyRequest h0
  rw [new_request_eq_ok block l0 _ _ htok hps]
  have hcols := parse_header_lines_all_colon ls
    { emptyRequest with method := some m, path := some p, http_version := some v }
    hall
  constructor
  · rw [hcols.1]
    simp [emptyRequest]
  · rw [hcols.2.1]
    simp [emptyRequest]

/-- Witness for C8: block `G / H`, then `A:b`, then `C:d`; the stored
list is the reverse of wire order and the count is 2. -/
theorem request_headers_reverse_order_witness :
    (new_request
      ['G', ' ', '/', ' ', 'H', '\n', 'A', ':', 'b', '\n', 'C', ':', 'd']).headers
      = ([['A', ':', 'b'], ['C', ':', 'd']].map parseHeaderPair).reverse ∧
    (new_request
      ['G', ' ', '/', ' ', 'H', '\n', 'A', ':', 'b', '\n', 'C', ':', 'd']).header_count
      = [['A', ':', 'b'], ['C', ':', 'd']].length :=
  request_headers_reverse_order
    ['G', ' ', '/', ' ', 'H', '\n', 'A', ':', 'b', '\n', 'C', ':', 'd']
    ['G', ' ', '/', ' ', 'H'] [['A', ':', 'b'], ['C', ':', 'd']]
    (by decide) (by decide) (by decide)

/-- The concrete response used to exhibit the C2 counterexample: its
version field says HTTP/1.0. -/
def versionTenResponse : Response :=
  { header_count := 0, headers := [], code := 200,
    http_version := ['H', 'T', 'T', 'P', '/', '1', '.', '0'],
    body := [], encoded_response := none }

/-- Counterexample for claim C2: a response whose version field is
`HTTP/1.0` still gets the status line `HTTP/1.1 200 OK` — the encoder
writes the literal `HTTP/1.1`, not the response's own version field,
so the status line is not `<version> <code> <reason>` for this
response. -/
theorem status_line_ignores_version_counterexample :
    versionTenResponse.http_version = ['H', 'T', 'T', 'P', '/', '1', '.', '0'] ∧
    construct_status_line versionTenResponse =
      some (crlf (httpOneDotOne ++ [' ']
        ++ Nat.toDigits 10 versionTenResponse.code ++ [' '] ++ ['O', 'K'])) ∧
    construct_status_line versionTenResponse ≠
      some (crlf (versionTenResponse.http_version ++ [' ']
        ++ Nat.toDigits 10 versionTenResponse.code ++ [' '] ++ ['O', 'K'])) := by
  decide

/-- Claim C2 (corrected): for every response with a known status code,
the status line of the encoded output is `HTTP/1.1 <code> <reason>`
terminated by CRLF, with the literal text `HTTP/1.1` regardless of the
response's own version field. -/
theorem status_line_literal_http11 (response : Response) (r : List Char)
    (hr : reason response.code = some r) (v : List Char) :
    construct_status_line { response with http_version := v } =
      some (crlf (httpOneDotOne ++ [' '] ++ Nat.toDigits 10 response.code
        ++ [' '] ++ r)) := by
  unfold construct_status_line
  simp only []
  rw [hr]

/-- Witness for the amended C2 at a concrete response and version. -/
theorem status_line_literal_http11_witness :
    construct_status_line { versionTenResponse with http_version := ['X'] } =
      some (crlf (httpOneDotOne ++ [' '] ++ Nat.toDigits 10 versionTenResponse.code
        ++ [' '] ++ ['O', 'K'])) :=
  status_line_literal_http11 versionTenResponse ['O', 'K'] (by decide) ['X']

/-- Claim C3 (confirmed): encoding a response with a known status code
and N caller-set headers yields a header list of exactly those N plus
the synthesized `Content-Length` (decimal byte length of the body) and
`Connection: close`, a header count of N + 2, and an encoded output
equal to status line, then every header line in list order, then one
blank CRLF, then the body bytes verbatim with nothing after them. -/
theorem encode_output_shape (response : Response) (r : List Char)
    (hr : reason response.code = some r) :
    (encode response).headers =
      response.headers ++
        [{ name := contentLengthName, value := Nat.toDigits 10 response.body.length },
         { name := connectionName, value := closeValue }] ∧
    (encode response).header_count = response.header_count + 2 ∧
    (encode response).encoded_response =
      some (crlf (httpOneDotOne ++ [' '] ++ Nat.toDigits 10 response.code ++ [' '] ++ r)
            ++ construct_headers_list
                (response.headers ++
                  [{ name := contentLengthName,
                     value := Nat.toDigits 10 response.body.length },
                   { name := connectionName, value := closeValue }])
            ++ ['\r', '\n'] ++ response.body) := by
  have hcs : construct_status_line response =
      some (crlf (httpOneDotOne ++ [' '] ++ Nat.toDigits 10 response.code
        ++ [' '] ++ r)) := by
    unfold construct_status_line
    rw [hr]
  unfold encode
  rw [hcs]
  simp only []
  refine ⟨?_, ?_, ?_⟩ <;>
    simp [add_header, construct_headers, List.append_assoc]

/-- The concrete response used in the C3 witness: one caller-set
header. -/
def sampleResponse : Response :=
  { header_count := 1,
    headers := [{ name := ['X'], value := ['y'] }],
    code := 200,
    http_version := ['H', 'T', 'T', 'P', '/', '1', '.', '1'],
    body := ['h', 'i'],
    encoded_response := none }

/-- Witness for C3 at a concrete response. -/
theorem encode_output_shape_witness :
    (encode sampleResponse).headers =
      sampleResponse.headers ++
        [{ name := contentLengthName,
           value := Nat.toDigits 10 sampleResponse.body.length },
         { name := connectionName, value := closeValue }] ∧
    (encode sampleResponse).header_count = sampleResponse.header_count + 2 ∧
    (encode sampleResponse).encoded_response =
      some (crlf (httpOneDotOne ++ [' '] ++ Nat.toDigits 10 sampleResponse.code
              ++ [' '] ++ ['O', 'K'])
            ++ construct_headers_list
                (sampleResponse.headers ++
                  [{ name := contentLengthName,
                     value := Nat.toDigits 10 sampleResponse.body.length },
                   { name := connectionName, value := closeValue }])
            ++ ['\r', '\n'] ++ sampleResponse.body) :=
  encode_output_shape sampleResponse ['O', 'K'] (by decide)

/-- Claim C6 (confirmed): for a response whose status code is absent
from the status table (and whose encoded buffer starts out NULL, as
the handler builds it), encoding produces no encoded output and
`send_response` sends nothing, returning its no-encoded-response
outcome. -/
theorem unknown_code_no_output (max_ressize : Nat) (response : Response)
    (hcode : reason response.code = none)
    (henc : response.encoded_response = none) :
    (encode response).encoded_response = none ∧
    send_response max_ressize response = SendOutcome.noEncoded := by
  have hcs : construct_status_line response = none := by
    unfold construct_status_line
    rw [hcode]
  have he : (encode response).encoded_response = none := by
    unfold encode
    rw [hcs]
    exact henc
  refine ⟨he, ?_⟩
  unfold send_response
  simp only []
  rw [he]

/-- The concrete response used in the C6 witness: code 999 is not in
the table. -/
def unknownCodeResponse : Response :=
  { header_count := 0, headers := [], code := 999,
    http_version := ['H'], body := ['h', 'i'], encoded_response := none }

/-- Witness for C6 at a concrete response with status code 999. -/
theorem unknown_code_no_output_witness :
    (encode unknownCodeResponse).encoded_response = none ∧
    send_response 100 unknownCodeResponse = SendOutcome.noEncoded :=
  unknown_code_no_output 100 unknownCodeResponse (by decide) (by decide)

/-- Claim C7 (confirmed): when the encoded response is strictly longer
than the configured `max_ressize`, `send_response` refuses to send:
nothing is written to the connection and the response is discarded
(the too-large outcome, on which the C code prints a diagnostic and
the connection is then closed by the handler's cleanup). -/
theorem oversized_response_not_sent (max_ressize : Nat) (response : Response)
    (enc : List Char)
    (henc : (encode response).encoded_response = some enc)
    (hlen : max_ressize < enc.length) :
    send_response max_ressize response = SendOutcome.tooLarge := by
  unfold send_response
  simp only []
  rw [henc]
  simp only []
  rw [if_pos (by omega)]

/-- The concrete response used in the C7 witness: its encoding is 59
bytes, past a `max_ressize` of 10. -/
def oversizedScenario : Response :=
  { header_count := 0, headers := [], code := 200,
    http_version := ['H'], body := ['h', 'i'], encoded_response := none }

/-- Witness for C7: `max_ressize` 10, encoded response longer than 10
bytes, nothing sent. -/
theorem oversized_response_not_sent_witness :
    send_response 10 oversizedScenario = SendOutcome.tooLarge :=
  oversized_response_not_sent 10 oversizedScenario
    ((encode oversizedScenario).encoded_response.getD []) (by decide) (by decide)

/-- The read loop meets the frame-reader contract from any starting
accumulation buffer. -/
theorem http_decode_go_meets_spec (maxReq : Nat) (chunks : List (List Char)) :
    ∀ buffer : List Char,
      FrameReaderSpec maxReq chunks buffer (http_decode_go maxReq chunks buffer) := by
  induction chunks with
  | nil =>
    intro buffer
    unfold http_decode_go
    by_cases h : buffer.length < maxReq - 1
    · exact FrameReaderSpec.noMoreInput buffer h
    · exact FrameReaderSpec.capacityStop [] buffer (by omega)
  | cons chunk rest ih =>
    intro buffer
    unfold http_decode_go
    by_cases h : buffer.length < maxReq - 1
    · rw [if_pos h]
      by_cases ht : chunk.take (maxReq - buffer.length) = []
      · rw [if_pos ht]
        exact FrameReaderSpec.peerClosed chunk rest buffer h ht
      · rw [if_neg ht]
        cases hf : findCRLFCRLF (buffer ++ chunk.take (maxReq - buffer.length)) with
        | some i =>
          exact FrameReaderSpec.separatorFound chunk rest buffer i h ht hf
        | none =>
          exact FrameReaderSpec.keepReading chunk rest buffer _ h ht hf (ih _)
    · rw [if_neg h]
      exact FrameReaderSpec.capacityStop (chunk :: rest) buffer (by omega)

/-- Claim C4 (confirmed): the frame reader, run on a trace of received
chunks with capacity `max_reqsize`, satisfies the specified contract —
it keeps receiving until the first `\r\n\r\n` in the accumulated
buffer (header output is the bytes before it, body output the bytes
after it that have arrived), or until at most one byte of capacity
remains or the peer stops sending (everything accumulated becomes
header text, no body), and the header output is null when nothing was
ever received. -/
theorem http_decode_meets_frame_reader_spec (max_reqsize : Nat)
    (chunks : List (List Char)) :
    FrameReaderSpec max_reqsize chunks [] (http_decode max_reqsize chunks) :=
  http_decode_go_meets_spec max_reqsize chunks []
